import Mathlib

/-!
Verification of the classification-and-relay engine of the absolute-ai proxy
(src/index.ts and src/src/complexityCheck.ts) against its specification.

The TypeScript source is shallowly embedded: JavaScript strings are Lean
Strings (lengths are counted in characters), JavaScript runtime values that
the code inspects with typeof/truthiness checks are embedded as an explicit
value type, asynchronous streams are embedded as the finite list of events
the consumer would observe in order, and fallible functions return Except.
-/

namespace Absolute

/-- Message roles, from the role enumeration in src/index.ts
(ChatMessageSchema: user, assistant, system, function, tool). -/
inductive Role where
  | user
  | assistant
  | system
  | function
  | tool
deriving DecidableEq, Repr

/-- Typed content parts, from the ContentPart union in src/index.ts:
a text part carries a text field, image and audio parts carry a resource url. -/
inductive ContentPart where
  | text (text : String)
  | image_url (url : String)
  | audio (url : String)
deriving DecidableEq, Repr

/-- Message content: either a plain string or an ordered sequence of typed
parts, the two branches of the string | ContentPart[] union in the source. -/
inductive Content where
  | str (s : String)
  | parts (ps : List ContentPart)
deriving DecidableEq, Repr

/-- A chat message as validated by ChatMessageSchema in src/index.ts.
Opaque function/tool-call payloads are not observed by any embedded code
path and are omitted; the optional name field is kept because the probe
request construction projects it away. -/
structure Message where
  role : Role
  content : Content
  name : Option String := none
deriving DecidableEq, Repr

/-- The projected message shape the probe request is built from
(the map in shouldUseSlowModel keeps only role and content). -/
structure ProbeMessage where
  role : Role
  content : Content
deriving DecidableEq, Repr

/-- A classification outcome, the return value of shouldUseSlowModel. -/
structure Decision where
  useSlowModel : Bool
  reason : String
deriving DecidableEq, Repr

/-- A JavaScript runtime value as far as validateModelConfig observes one:
it distinguishes strings (typeof check) and truthiness. The TypeScript type
of apiKey is string, but the code defensively checks typeof at runtime, so
the embedding keeps the runtime value type. -/
inductive JsVal where
  | vstr (s : String)
  | vnum (n : Int)
  | vbool (b : Bool)
  | vnull
deriving DecidableEq, Repr

/-- JavaScript truthiness of an embedded runtime value: empty strings, zero,
false and null are falsy. -/
def JsVal.truthy : JsVal → Bool
  | .vstr s => !s.isEmpty
  | .vnum n => n != 0
  | .vbool b => b
  | .vnull => false

/-- Whether typeof the value is "string". -/
def JsVal.isString : JsVal → Bool
  | .vstr _ => true
  | _ => false

/-- Model configuration, from the ModelConfig interface in src/index.ts
(name required, apiKey and apiUrl optional). -/
structure ModelConfig where
  name : String
  apiKey : Option JsVal := none
  apiUrl : Option String := none
deriving DecidableEq, Repr

/-- A fastModel/slowModel request field: absent, a bare model-name string,
or a structured configuration. -/
inductive ModelParam where
  | absent
  | bare (s : String)
  | structured (c : ModelConfig)
deriving DecidableEq, Repr

/-- A validation error as produced by validateModelConfig in src/index.ts. -/
structure ValidationError where
  message : String
  field : Option String := none
deriving DecidableEq, Repr

/-- Embedding of JavaScript String.prototype.includes restricted to string
patterns: the pattern occurs as a contiguous substring. -/
def strIncludes (s pat : String) : Bool :=
  (List.range (s.data.length + 1)).any (fun i => pat.data.isPrefixOf (s.data.drop i))

/-- Embedding of JavaScript String.prototype.toLowerCase (agrees with it on
the ASCII range, which covers the fixed keyword list). -/
def jsToLowerCase (s : String) : String :=
  String.mk (s.data.map Char.toLower)

/-- Embedding of JavaScript Array.prototype.findLast: the last element
satisfying the predicate. -/
def jsFindLast (l : List α) (p : α → Bool) : Option α :=
  l.reverse.find? p

/-- Embedding of JavaScript Array.prototype.splice(i, 0, x) for 0 ≤ i ≤
length: insert x before position i. -/
def jsSpliceInsert (l : List α) (i : Nat) (x : α) : List α :=
  l.take i ++ x :: l.drop i

/-- Content extraction, from extractTextFromContent in
src/src/complexityCheck.ts: a string is returned unchanged; a part sequence
is filtered to its text parts, whose text fields are joined with a single
space. -/
def extractTextFromContent : Content → String
  | .str s => s
  | .parts ps =>
    String.intercalate " " ((ps.filter (fun part => match part with
      | .text _ => true
      | _ => false)).map (fun part => match part with
      | .text t => t
      | _ => ""))

/-- The text field of a part when it is a text part (used to state what
extraction keeps: exactly the text parts, in order). -/
def ContentPart.textField : ContentPart → Option String
  | .text t => some t
  | _ => none

/-- The fixed keyword list of the heuristic classifier
(src/src/complexityCheck.ts). -/
def keywords : List String := ["legal", "medical", "analysis", "philosophy"]

/-- The fixed system-role complexity-check instruction
(COMPLEXITY_CHECK_PROMPT in src/src/complexityCheck.ts). -/
def COMPLEXITY_CHECK_PROMPT : ProbeMessage :=
  { role := Role.system
    content := Content.str ("If the user\x27s query requires analysis, reasoning, mathematics, knowledge, explanations, or problem solving, start your response with \x27==\x27 and then continue normally. For simple queries like greetings, basic facts, or straightforward questions, respond normally without any prefix.") }

/-- The map in shouldUseSlowModel that keeps only role and content of each
message. -/
def projectMessage (m : Message) : ProbeMessage :=
  { role := m.role, content := m.content }

/-- The probe request message list: project every message to role/content,
then splice the complexity-check instruction in before the last message
(messagesWithCheck in src/src/complexityCheck.ts). -/
def messagesWithCheck (messages : List Message) : List ProbeMessage :=
  let mapped := messages.map projectMessage
  jsSpliceInsert mapped (mapped.length - 1) COMPLEXITY_CHECK_PROMPT

/-- How the for-await loop over the probe stream exits: it either returns a
decision (marker seen), breaks (first truthy content without the marker), or
exhausts the stream without ever seeing truthy content. -/
inductive LoopExit where
  | returned (d : Decision)
  | broke
  | exhausted
deriving DecidableEq, Repr

/-- The chunk loop of shouldUseSlowModel: each chunk optionally carries delta
content; the first truthy (non-empty) content decides — marker prefix means
return slow/model-detected, anything else breaks. -/
def probeChunksLoop : List (Option String) → LoopExit
  | [] => .exhausted
  | chunk :: rest =>
    match chunk with
    | some s =>
      if !s.isEmpty then
        if s.startsWith "==" then .returned { useSlowModel := true, reason := "model-detected" }
        else .broke
      else probeChunksLoop rest
    | none => probeChunksLoop rest

/-- The probe stream as observed by shouldUseSlowModel: either creating the
request throws, or a stream yields a finite list of chunks (each exposing
optional delta content) and then either completes or raises an error. -/
inductive ProbeStream where
  | createError
  | stream (chunks : List (Option String)) (errorsAfter : Bool)
deriving DecidableEq, Repr

/-- Consumption of the probe stream inside the try/catch of
shouldUseSlowModel: a create failure or a stream error reached by the loop is
caught and degrades to fast/check-failed; a break or a clean exhaustion
yields fast/model-simple; a marker yields slow/model-detected. A stream error
positioned after the first truthy chunk is never reached because the loop
stops pulling. -/
def consumeProbe : ProbeStream → Decision
  | .createError => { useSlowModel := false, reason := "check-failed" }
  | .stream chunks errorsAfter =>
    match probeChunksLoop chunks with
    | .returned d => d
    | .broke => { useSlowModel := false, reason := "model-simple" }
    | .exhausted =>
      if errorsAfter then { useSlowModel := false, reason := "check-failed" }
      else { useSlowModel := false, reason := "model-simple" }

/-- Whether an error is actually raised toward the probe consumer: request
creation throws, or the stream errors and the loop reaches that error
(which it does exactly when no truthy chunk stopped it first). -/
def probeErrorRaised : ProbeStream → Bool
  | .createError => true
  | .stream chunks errorsAfter =>
    errorsAfter && (match probeChunksLoop chunks with
      | .exhausted => true
      | _ => false)

/-- The classifier shouldUseSlowModel from src/src/complexityCheck.ts:
length rule, then keyword rule, then the model probe. The probe request is
built from messagesWithCheck messages; the backend reply stream is the probe
argument. -/
def shouldUseSlowModel (content : Content) (probe : ProbeStream)
    (messages : List Message) : Decision :=
  let textContent := extractTextFromContent content
  if textContent.length > 1000 then { useSlowModel := true, reason := "length" }
  else if keywords.any (fun keyword => strIncludes (jsToLowerCase textContent) keyword) then
    { useSlowModel := true, reason := "keywords" }
  else
    let probeRequest := messagesWithCheck messages
    consumeProbe probe

/-- The first truthy (non-empty) delta content of a chunk list, used to state
that the probe classification inspects only this fragment. -/
def jsFirstNonEmpty : List (Option String) → Option String
  | [] => none
  | some s :: rest => if !s.isEmpty then some s else jsFirstNonEmpty rest
  | none :: rest => jsFirstNonEmpty rest

/-- Validation of a model configuration, from validateModelConfig in
src/index.ts. URL parsing is the browser URL constructor, an external
collaborator, so it is passed in as a predicate parseURL telling which
strings it accepts. Truthiness guards are kept: an empty name fails, a falsy
apiKey skips the typeof check, a falsy (empty) apiUrl skips the URL check. -/
def validateModelConfig (parseURL : String → Bool) (config : ModelConfig) :
    Option ValidationError :=
  if config.name.isEmpty then
    some { message := "Model name is required", field := some "name" }
  else if (match config.apiKey with
    | some v => v.truthy && !v.isString
    | none => false) then
    some { message := "API key must be a string", field := some "apiKey" }
  else match config.apiUrl with
    | some u =>
      if !u.isEmpty && !parseURL u then
        some { message := "Invalid API URL", field := some "apiUrl" }
      else none
    | none => none

/-- The selector resolution step of getModelConfig in src/index.ts, before
validation: an absent selector and a falsy (empty) bare string both take the
default name; a non-empty bare string is wrapped; a structured value is used
as-is. -/
def resolveModelParam (modelParam : ModelParam) (defaultModel : String) : ModelConfig :=
  match modelParam with
  | .absent => { name := defaultModel }
  | .bare s => if s.isEmpty then { name := defaultModel } else { name := s }
  | .structured c => c

/-- The thrown message of getModelConfig on a validation error, including the
field name when the field is truthy. -/
def invalidModelConfigMessage (e : ValidationError) : String :=
  "Invalid model configuration: " ++ e.message ++
    (match e.field with
     | some f => if !f.isEmpty then " (" ++ f ++ ")" else ""
     | none => "")

/-- Model resolution, from getModelConfig in src/index.ts: resolve the
selector against the side default, then validate; a validation error is
thrown as an Error whose message names the offending field. -/
def getModelConfig (parseURL : String → Bool) (modelParam : ModelParam)
    (defaultModel : String) : Except String ModelConfig :=
  match validateModelConfig parseURL (resolveModelParam modelParam defaultModel) with
  | some e => .error (invalidModelConfigMessage e)
  | none => .ok (resolveModelParam modelParam defaultModel)

/-- The prompt selected for classification in the request handler
(src/index.ts): the content of the last user-role message, or the empty
string when there is none. -/
def promptOf (messages : List Message) : Content :=
  match jsFindLast messages (fun m => m.role == Role.user) with
  | some m => m.content
  | none => Content.str ""

/-- The abort state of the inbound request signal as a function of how many
chunks the relay loop has processed: with a disconnect at k, the signal is
aborted from the k-th iteration on; with no disconnect it is never aborted. -/
def jsAborted (disconnectAt : Option Nat) (i : Nat) : Bool :=
  match disconnectAt with
  | none => false
  | some k => k ≤ i

/-- One streaming relay scenario: the chunks the backend would deliver in
order, whether the backend stream raises after delivering them, and the
iteration index from which the client-disconnect signal reads as aborted. -/
structure RelayInput where
  chunks : List String
  errorsAfter : Bool
  disconnectAt : Option Nat
deriving DecidableEq, Repr

/-- What the caller and the backend observe of one relay run: the chunks
enqueued to the caller, whether an error was surfaced to the caller, how
often the caller-facing stream was closed, and how often the outbound
backend connection was released. -/
structure RelayTrace where
  enqueued : List String
  erroredToClient : Bool
  closedCount : Nat
  releaseCount : Nat
deriving DecidableEq, Repr

/-- The for-await body of the ReadableStream start callback in src/index.ts:
before forwarding each chunk the loop checks the disconnect signal and, if
aborted, returns without enqueuing. Returns the enqueued chunks and whether
the loop exited early via that return. -/
def relayLoop (disconnectAt : Option Nat) : List String → Nat → List String × Bool
  | [], _ => ([], false)
  | chunk :: rest, i =>
    if jsAborted disconnectAt i then ([], true)
    else
      let r := relayLoop disconnectAt rest (i + 1)
      (chunk :: r.1, r.2)

/-- The whole streaming relay of src/index.ts as a trace. The catch block
surfaces a backend stream error to the caller only when the loop reached it
(no early return) and the signal is not aborted; the finally block closes
the caller stream only when the signal is not aborted, and closing throws
harmlessly when the controller was already errored. The backend iterator is
settled exactly once by the loop itself (normal completion, thrown error and
early return each settle a JavaScript async iterator once); the finally-block
cleanup in the handler would additionally abort activeStream, but activeStream
is declared and never assigned in src/index.ts, so it contributes nothing. -/
def relayRun (inp : RelayInput) : RelayTrace :=
  let r := relayLoop inp.disconnectAt inp.chunks 0
  let exitAborted := jsAborted inp.disconnectAt r.1.length
  let errored := inp.errorsAfter && !r.2 && !exitAborted
  let activeStreamAssigned := false
  { enqueued := r.1
    erroredToClient := errored
    closedCount := if !exitAborted && !errored then 1 else 0
    releaseCount := 1 + (if activeStreamAssigned then 1 else 0) }

/-- A caller-visible response body: empty (499), a JSON error object with a
message, the relayed non-streaming completion, or the relayed event stream. -/
inductive RespBody where
  | empty
  | errJson (message : String)
  | completionJson
  | eventStream (t : RelayTrace)
deriving DecidableEq, Repr

/-- The caller-visible outcome of the request handler together with whether a
relay backend connection was opened for the request. -/
structure HandlerOutcome where
  status : Nat
  body : RespBody
  relayOpened : Bool
deriving DecidableEq, Repr

/-- The Error-instance branch of the catch block in src/index.ts: messages
containing 401, 404 or 429 map to those statuses; everything else maps to a
generic 500 with the fixed message. -/
def proxyErrorResponse (msg : String) : Nat × RespBody :=
  if strIncludes msg "401" then (401, .errJson "Invalid API key")
  else if strIncludes msg "404" then (404, .errJson "Model not found")
  else if strIncludes msg "429" then (429, .errJson "Rate limit exceeded")
  else (500, .errJson "Model proxy failed")

/-- The validated request body consumed by the handler: messages plus the
optional fast/slow selectors and the stream flag. -/
structure RequestBody where
  messages : List Message
  fastModel : ModelParam
  slowModel : ModelParam
  stream : Bool
deriving Repr

/-- The POST /v1/chat/completions handler of src/index.ts after upstream
schema validation: pick the last user message as prompt, classify, resolve
the chosen side's selector (slow defaults to gpt-4o-mini, fast to gpt-4o);
a resolution error is caught by the outer handler and mapped by
proxyErrorResponse before any relay connection is opened; otherwise the
relay opens one backend connection and returns either the buffered
completion or the event stream. -/
def handleChatCompletions (parseURL : String → Bool) (body : RequestBody)
    (probe : ProbeStream) (backend : RelayInput) : HandlerOutcome :=
  let prompt := promptOf body.messages
  let dec := shouldUseSlowModel prompt probe body.messages
  let cfgResult :=
    if dec.useSlowModel then getModelConfig parseURL body.slowModel "gpt-4o-mini"
    else getModelConfig parseURL body.fastModel "gpt-4o"
  match cfgResult with
  | .error msg =>
    let r := proxyErrorResponse msg
    { status := r.1, body := r.2, relayOpened := false }
  | .ok _cfg =>
    if body.stream then
      { status := 200, body := .eventStream (relayRun backend), relayOpened := true }
    else
      { status := 200, body := .completionJson, relayOpened := true }

/-! Helper lemmas. -/

/-- The chunk loop is determined by the first truthy content fragment. -/
theorem probeChunksLoop_eq (chunks : List (Option String)) :
    probeChunksLoop chunks =
      match jsFirstNonEmpty chunks with
      | some s =>
        if s.startsWith "==" then
          LoopExit.returned { useSlowModel := true, reason := "model-detected" }
        else LoopExit.broke
      | none => LoopExit.exhausted := by
  induction chunks with
  | nil => rfl
  | cons c rest ih =>
    cases c with
    | none => simpa [probeChunksLoop, jsFirstNonEmpty] using ih
    | some s =>
      by_cases h : s.isEmpty
      · simpa [probeChunksLoop, jsFirstNonEmpty, h] using ih
      · simp [probeChunksLoop, jsFirstNonEmpty, h]

/-- Filtering to text parts and projecting their text field is the filterMap
over the text field. -/
theorem filter_text_map_eq_filterMap (ps : List ContentPart) :
    (ps.filter (fun part => match part with
      | .text _ => true
      | _ => false)).map (fun part => match part with
      | .text t => t
      | _ => "")
    = ps.filterMap ContentPart.textField := by
  induction ps with
  | nil => rfl
  | cons p rest ih => cases p <;> simp [ContentPart.textField, ih]

/-- Substring containment is preserved by lowercasing both sides. -/
theorem strIncludes_jsToLowerCase {s v : String} (h : strIncludes s v = true) :
    strIncludes (jsToLowerCase s) (jsToLowerCase v) = true := by
  unfold strIncludes at h ⊢
  rw [List.any_eq_true] at h ⊢
  obtain ⟨i, hi, hpre⟩ := h
  refine ⟨i, ?_, ?_⟩
  · simpa [jsToLowerCase] using hi
  · rw [List.isPrefixOf_iff_prefix] at hpre ⊢
    simpa [jsToLowerCase, ← List.map_drop] using hpre.map Char.toLower

/-- When the heuristics stay silent, the classifier outcome is the probe
consumption. -/
theorem shouldUseSlowModel_eq_probe {content : Content} (messages : List Message)
    (hlen : ¬ 1000 < (extractTextFromContent content).length)
    (hkw : keywords.any
      (fun keyword => strIncludes (jsToLowerCase (extractTextFromContent content)) keyword)
      = false) :
    ∀ probe, shouldUseSlowModel content probe messages = consumeProbe probe := by
  intro probe
  simp [shouldUseSlowModel, hlen, hkw]

/-! Claim theorems. -/

/-- C2: for every probe stream that ends without raising, the classification
inspects only the first non-empty text fragment: a fragment starting with ==
yields slow with reason model-detected, any other first fragment yields fast
with reason model-simple, and a stream with no non-empty fragment yields fast
with reason model-simple. -/
theorem probe_first_fragment_decides (chunks : List (Option String)) :
    consumeProbe (ProbeStream.stream chunks false) =
      match jsFirstNonEmpty chunks with
      | some s =>
        if s.startsWith "==" then { useSlowModel := true, reason := "model-detected" }
        else { useSlowModel := false, reason := "model-simple" }
      | none => { useSlowModel := false, reason := "model-simple" } := by
  rw [consumeProbe, probeChunksLoop_eq]
  cases hfe : jsFirstNonEmpty chunks with
  | none => simp
  | some s => by_cases h : s.startsWith "==" <;> simp [h]

/-- C7: the content extractor returns a string content unchanged; on a part
sequence it returns the text fields of exactly the text parts, in original
order, joined by single spaces; a sequence with no text part yields the empty
string. The function is total, so it never fails. -/
theorem extractText_characterization :
    (∀ s, extractTextFromContent (Content.str s) = s) ∧
    (∀ ps, extractTextFromContent (Content.parts ps) =
      String.intercalate " " (ps.filterMap ContentPart.textField)) ∧
    (∀ ps, ps.filterMap ContentPart.textField = [] →
      extractTextFromContent (Content.parts ps) = "") := by
  refine ⟨fun s => rfl, fun ps => ?_, fun ps h => ?_⟩
  · rw [extractTextFromContent, filter_text_map_eq_filterMap]
  · rw [extractTextFromContent, filter_text_map_eq_filterMap, h]
    rfl

/-- Witness for C7 at a concrete all-non-text sequence. -/
theorem extractText_characterization_witness :
    extractTextFromContent (Content.parts [ContentPart.image_url "x"]) = "" :=
  extractText_characterization.2.2 [ContentPart.image_url "x"] rfl

/-- C5: whenever the extracted text is longer than 1000 characters the
classifier returns slow with reason length, whatever the keyword content and
whatever the probe would have answered (so the probe is never consulted). -/
theorem length_rule_overrides (content : Content) (messages : List Message)
    (h : 1000 < (extractTextFromContent content).length) :
    ∀ probe, shouldUseSlowModel content probe messages
      = { useSlowModel := true, reason := "length" } := by
  intro probe
  simp [shouldUseSlowModel, h]

/-- Witness for C5 on a 1001-character text. -/
theorem length_rule_overrides_witness :
    shouldUseSlowModel (Content.str (String.mk (List.replicate 1001 'a')))
      ProbeStream.createError []
      = { useSlowModel := true, reason := "length" } :=
  length_rule_overrides _ []
    (by
      show 1000 < (String.mk (List.replicate 1001 'a')).length
      rw [String.length_mk, List.length_replicate]
      norm_num)
    ProbeStream.createError

/-- C6: whenever the extracted text is at most 1000 characters long and
contains an occurrence which lowercases to one of the fixed keywords (so the
keyword in any letter case), the classifier returns slow with reason
keywords, whatever the probe would have answered. -/
theorem keyword_rule_fires (content : Content) (messages : List Message)
    (hlen : (extractTextFromContent content).length ≤ 1000)
    (hkw : ∃ v, strIncludes (extractTextFromContent content) v = true ∧
      jsToLowerCase v ∈ keywords) :
    ∀ probe, shouldUseSlowModel content probe messages
      = { useSlowModel := true, reason := "keywords" } := by
  intro probe
  obtain ⟨v, hv, hmem⟩ := hkw
  have hany : keywords.any
      (fun keyword => strIncludes (jsToLowerCase (extractTextFromContent content)) keyword)
      = true :=
    List.any_eq_true.mpr ⟨jsToLowerCase v, hmem, strIncludes_jsToLowerCase hv⟩
  simp [shouldUseSlowModel, Nat.not_lt.mpr hlen, hany]

/-- Witness for C6 on a short text containing LEGAL in upper case. -/
theorem keyword_rule_fires_witness :
    shouldUseSlowModel (Content.str "Explain the LEGAL implications of X")
      ProbeStream.createError []
      = { useSlowModel := true, reason := "keywords" } :=
  keyword_rule_fires _ [] (by decide) ⟨"LEGAL", by decide, by decide⟩
    ProbeStream.createError

/-- A prefix of elements on which the predicate is false does not affect
find?. -/
theorem find?_append_of_all_neg {p : α → Bool} {l l2 : List α}
    (h : ∀ x ∈ l, p x = false) : (l ++ l2).find? p = l2.find? p := by
  rw [List.find?_append,
    List.find?_eq_none.mpr (fun x hx => by simp [h x hx]), Option.none_or]

/-- C3: when neither heuristic rule fires and an error is actually raised
during the probe (request creation throws, or the stream errors before any
truthy content arrives), the classifier returns fast with reason
check-failed, and the handler outcome is exactly the outcome it would have
produced with a cleanly empty probe stream: the request continues and never
fails because of the probe. -/
theorem probe_failure_degrades_to_fast (body : RequestBody) (probe : ProbeStream)
    (parseURL : String → Bool) (backend : RelayInput)
    (hlen : ¬ 1000 < (extractTextFromContent (promptOf body.messages)).length)
    (hkw : keywords.any (fun keyword =>
      strIncludes (jsToLowerCase (extractTextFromContent (promptOf body.messages))) keyword)
      = false)
    (herr : probeErrorRaised probe = true) :
    shouldUseSlowModel (promptOf body.messages) probe body.messages
      = { useSlowModel := false, reason := "check-failed" } ∧
    handleChatCompletions parseURL body probe backend
      = handleChatCompletions parseURL body (ProbeStream.stream [] false) backend := by
  have hc : consumeProbe probe = { useSlowModel := false, reason := "check-failed" } := by
    cases probe with
    | createError => rfl
    | stream chunks e =>
      rw [probeErrorRaised, Bool.and_eq_true] at herr
      obtain ⟨he, hm⟩ := herr
      rw [consumeProbe]
      cases hpl : probeChunksLoop chunks with
      | exhausted => simp [he]
      | returned d => rw [hpl] at hm; simp at hm
      | broke => rw [hpl] at hm; simp at hm
  have h1 := shouldUseSlowModel_eq_probe body.messages hlen hkw probe
  have h2 := shouldUseSlowModel_eq_probe body.messages hlen hkw
    (ProbeStream.stream [] false)
  refine ⟨h1.trans hc, ?_⟩
  simp only [handleChatCompletions, h1, h2, hc]
  rfl

/-- Witness for C3: a probe whose request creation throws classifies the
request as fast with reason check-failed. -/
theorem probe_failure_degrades_to_fast_witness :
    shouldUseSlowModel
      (promptOf [{ role := Role.user, content := Content.str "hi" }])
      ProbeStream.createError
      [{ role := Role.user, content := Content.str "hi" }]
      = { useSlowModel := false, reason := "check-failed" } :=
  (probe_failure_degrades_to_fast
    { messages := [{ role := Role.user, content := Content.str "hi" }]
      fastModel := ModelParam.absent
      slowModel := ModelParam.absent
      stream := false }
    ProbeStream.createError (fun _ => true)
    { chunks := [], errorsAfter := false, disconnectAt := none }
    (by decide) (by decide) rfl).1

/-- C4: for every non-empty conversation of n messages the probe request has
n + 1 entries: the complexity-check instruction is system-role and sits at
position n - 1, the first n - 1 original messages keep their positions, and
each original message from position n - 1 on is shifted by one, so the
original last message remains the last entry. -/
theorem complexity_prompt_inserted_before_last (messages : List Message)
    (h : messages ≠ []) :
    COMPLEXITY_CHECK_PROMPT.role = Role.system ∧
    (messagesWithCheck messages).length = messages.length + 1 ∧
    (messagesWithCheck messages)[messages.length - 1]? = some COMPLEXITY_CHECK_PROMPT ∧
    (∀ i, i < messages.length - 1 →
      (messagesWithCheck messages)[i]? = (messages.map projectMessage)[i]?) ∧
    (∀ i, messages.length - 1 ≤ i → i < messages.length →
      (messagesWithCheck messages)[i + 1]? = (messages.map projectMessage)[i]?) := by
  have hn : 0 < messages.length := List.length_pos.mpr h
  have hMlen : (messages.map projectMessage).length = messages.length :=
    List.length_map _ _
  have hspl : messagesWithCheck messages
      = (messages.map projectMessage).take (messages.length - 1)
        ++ COMPLEXITY_CHECK_PROMPT
          :: (messages.map projectMessage).drop (messages.length - 1) := by
    simp [messagesWithCheck, jsSpliceInsert, hMlen]
  have htake : ((messages.map projectMessage).take (messages.length - 1)).length
      = messages.length - 1 := by
    simp [hMlen]
  refine ⟨rfl, ?_, ?_, ?_, ?_⟩
  · rw [hspl]
    simp [hMlen]
    omega
  · rw [hspl, List.getElem?_append_right (le_of_eq htake)]
    rw [htake, Nat.sub_self]
    simp
  · intro i hi
    rw [hspl, List.getElem?_append_left (by rw [htake]; omega)]
    exact List.getElem?_take_of_lt hi
  · intro i h1 h2
    rw [hspl, List.getElem?_append_right (by rw [htake]; omega)]
    rw [htake]
    have hidx : i + 1 - (messages.length - 1) = (i - (messages.length - 1)) + 1 := by
      omega
    rw [hidx, List.getElem?_cons_succ, List.getElem?_drop]
    congr 1
    omega

/-- Witness for C4 on a one-message conversation. -/
theorem complexity_prompt_inserted_before_last_witness :
    (messagesWithCheck [{ role := Role.user, content := Content.str "Hi" }]).length
      = ([{ role := Role.user, content := Content.str "Hi" }] : List Message).length + 1 :=
  (complexity_prompt_inserted_before_last
    [{ role := Role.user, content := Content.str "Hi" }] (by simp)).2.1

/-- C10: the classified text is the content of the last user-role message
(messages after it with other roles do not change the selected prompt), and
when no user-role message exists the empty string is classified, in which
case neither heuristic rule fires and the probe alone decides. -/
theorem last_user_message_classified (msgs : List Message) (probe : ProbeStream) :
    (∀ (l₁ l₂ : List Message) (m : Message),
      msgs = l₁ ++ m :: l₂ → m.role = Role.user →
      (∀ m2 ∈ l₂, m2.role ≠ Role.user) →
      promptOf msgs = m.content) ∧
    ((∀ m ∈ msgs, m.role ≠ Role.user) →
      promptOf msgs = Content.str "" ∧
      shouldUseSlowModel (promptOf msgs) probe msgs = consumeProbe probe) := by
  constructor
  · intro l₁ l₂ m hsplit hrole hl₂
    subst hsplit
    unfold promptOf jsFindLast
    rw [List.reverse_append, List.reverse_cons, List.append_assoc]
    rw [find?_append_of_all_neg (fun x hx => by
      simp [hl₂ x (List.mem_reverse.mp hx)])]
    rw [List.singleton_append, List.find?_cons_of_pos _ (by simp [hrole])]
  · intro hnone
    have hfind : jsFindLast msgs (fun m => m.role == Role.user) = none := by
      unfold jsFindLast
      exact List.find?_eq_none.mpr (fun x hx => by
        simp [hnone x (List.mem_reverse.mp hx)])
    have hp : promptOf msgs = Content.str "" := by
      unfold promptOf
      rw [hfind]
    refine ⟨hp, ?_⟩
    rw [hp]
    exact shouldUseSlowModel_eq_probe msgs (by decide) (by decide) probe

/-- Validation fails exactly when the name is empty, a supplied credential is
truthy and not a string, or a supplied endpoint is non-empty and rejected by
the URL parser. -/
theorem validateModelConfig_some_iff (parseURL : String → Bool) (config : ModelConfig) :
    (∃ e, validateModelConfig parseURL config = some e) ↔
      (config.name.isEmpty = true ∨
       (∃ v, config.apiKey = some v ∧ v.truthy = true ∧ v.isString = false) ∨
       (∃ u, config.apiUrl = some u ∧ u.isEmpty = false ∧ parseURL u = false)) := by
  obtain ⟨name, apiKey, apiUrl⟩ := config
  unfold validateModelConfig
  by_cases h1 : name.isEmpty
  · simp [h1]
  · cases apiKey with
    | none =>
      cases apiUrl with
      | none => simp [h1]
      | some u =>
        by_cases hu : u.isEmpty
        · simp [h1, hu]
        · by_cases hp : parseURL u <;> simp [h1, hu, hp]
    | some v =>
      by_cases hvt : v.truthy
      · by_cases hvs : v.isString
        · cases apiUrl with
          | none => simp [h1, hvt, hvs]
          | some u =>
            by_cases hu : u.isEmpty
            · simp [h1, hvt, hvs, hu]
            · by_cases hp : parseURL u <;> simp [h1, hvt, hvs, hu, hp]
        · simp [h1, hvt, hvs]
      · cases apiUrl with
        | none => simp [h1, hvt]
        | some u =>
          by_cases hu : u.isEmpty
          · simp [h1, hvt, hu]
          · by_cases hp : parseURL u <;> simp [h1, hvt, hu, hp]

/-- A validation error is one of the three fixed errors. -/
theorem validateModelConfig_err_cases {parseURL : String → Bool}
    {config : ModelConfig} {e : ValidationError}
    (h : validateModelConfig parseURL config = some e) :
    e = { message := "Model name is required", field := some "name" } ∨
    e = { message := "API key must be a string", field := some "apiKey" } ∨
    e = { message := "Invalid API URL", field := some "apiUrl" } := by
  unfold validateModelConfig at h
  split at h
  · exact Or.inl (by simpa using h.symm)
  · split at h
    · exact Or.inr (Or.inl (by simpa using h.symm))
    · split at h
      · split at h
        · exact Or.inr (Or.inr (by simpa using h.symm))
        · simp at h
      · simp at h

/-- A model-resolution error carries the message built from one of the three
validation errors. -/
theorem getModelConfig_error_shape {parseURL : String → Bool} {p : ModelParam}
    {d m : String} (h : getModelConfig parseURL p d = Except.error m) :
    ∃ e, validateModelConfig parseURL (resolveModelParam p d) = some e ∧
      m = invalidModelConfigMessage e := by
  unfold getModelConfig at h
  cases hv : validateModelConfig parseURL (resolveModelParam p d) with
  | none => rw [hv] at h; simp at h
  | some e =>
    rw [hv] at h
    simp at h
    exact ⟨e, rfl, h.symm⟩

/-- C8 amended: the resolver takes the default name when the selector is
absent or is the falsy empty bare string, wraps a non-empty bare string, and
uses a structured value as-is; it fails exactly when the resolved name is
empty, a supplied credential is truthy and not a string, or a supplied
endpoint is non-empty and does not parse as a URL; on success it returns the
resolved configuration unchanged. -/
theorem getModelConfig_characterization (parseURL : String → Bool)
    (modelParam : ModelParam) (defaultModel : String) :
    (resolveModelParam ModelParam.absent defaultModel
      = { name := defaultModel, apiKey := none, apiUrl := none }) ∧
    (∀ s : String, s.isEmpty = false →
      resolveModelParam (ModelParam.bare s) defaultModel
        = { name := s, apiKey := none, apiUrl := none }) ∧
    (resolveModelParam (ModelParam.bare "") defaultModel
      = { name := defaultModel, apiKey := none, apiUrl := none }) ∧
    (∀ c, resolveModelParam (ModelParam.structured c) defaultModel = c) ∧
    ((∃ e, getModelConfig parseURL modelParam defaultModel = Except.error e) ↔
      ((resolveModelParam modelParam defaultModel).name.isEmpty = true ∨
       (∃ v, (resolveModelParam modelParam defaultModel).apiKey = some v ∧
         v.truthy = true ∧ v.isString = false) ∨
       (∃ u, (resolveModelParam modelParam defaultModel).apiUrl = some u ∧
         u.isEmpty = false ∧ parseURL u = false))) ∧
    (∀ c, getModelConfig parseURL modelParam defaultModel = Except.ok c →
      c = resolveModelParam modelParam defaultModel) := by
  refine ⟨rfl, ?_, rfl, fun c => rfl, ?_, ?_⟩
  · intro s hs
    simp [resolveModelParam, hs]
  · have hg : (∃ e, getModelConfig parseURL modelParam defaultModel = Except.error e) ↔
        (∃ e, validateModelConfig parseURL (resolveModelParam modelParam defaultModel)
          = some e) := by
      unfold getModelConfig
      cases hv : validateModelConfig parseURL (resolveModelParam modelParam defaultModel)
        <;> simp [hv]
    exact hg.trans (validateModelConfig_some_iff _ _)
  · intro c hc
    unfold getModelConfig at hc
    cases hv : validateModelConfig parseURL (resolveModelParam modelParam defaultModel) with
    | none => rw [hv] at hc; simpa using hc.symm
    | some e => rw [hv] at hc; simp at hc

/-- Witness for C8 amended: a bare non-empty selector string is wrapped as
the model name. -/
theorem getModelConfig_characterization_witness :
    resolveModelParam (ModelParam.bare "m1") "gpt-4o"
      = { name := "m1", apiKey := none, apiUrl := none } :=
  (getModelConfig_characterization (fun _ => true) (ModelParam.bare "m1") "gpt-4o").2.1
    "m1" rfl

/-- Counterexample to C8 as stated: a bare empty selector string resolves to
the default name and does not fail (the claim says it resolves to the empty
name and hence fails); a supplied falsy non-string credential does not fail
(the claim says any supplied non-string credential fails); a supplied empty
endpoint does not fail even when the URL parser rejects every string (the
claim says any supplied unparseable endpoint fails). -/
theorem getModelConfig_claim_counterexample :
    getModelConfig (fun _ => true) (ModelParam.bare "") "gpt-4o"
      = Except.ok { name := "gpt-4o", apiKey := none, apiUrl := none } ∧
    getModelConfig (fun _ => true)
      (ModelParam.structured { name := "m", apiKey := some (JsVal.vnum 0), apiUrl := none })
      "gpt-4o"
      = Except.ok { name := "m", apiKey := some (JsVal.vnum 0), apiUrl := none } ∧
    getModelConfig (fun _ => false)
      (ModelParam.structured { name := "m", apiKey := none, apiUrl := some "" })
      "gpt-4o"
      = Except.ok { name := "m", apiKey := none, apiUrl := some "" } :=
  ⟨rfl, rfl, rfl⟩

/-- The message of any model-config validation error maps to the generic 500
response: it contains none of 401, 404, 429. -/
theorem proxyErrorResponse_invalidModelConfig {e : ValidationError}
    (h : e = { message := "Model name is required", field := some "name" } ∨
      e = { message := "API key must be a string", field := some "apiKey" } ∨
      e = { message := "Invalid API URL", field := some "apiUrl" }) :
    proxyErrorResponse (invalidModelConfigMessage e)
      = (500, RespBody.errJson "Model proxy failed") := by
  rcases h with h | h | h <;> subst h <;> rfl

/-- C9 amended: whenever resolution of the chosen side's selector fails, the
caller-visible outcome is the generic HTTP 500 JSON failure with the fixed
message Model proxy failed (the offending field name appears only in the
internally thrown message, not in the response), and no relay backend
connection is opened. -/
theorem resolution_failure_generic_500 (parseURL : String → Bool)
    (body : RequestBody) (probe : ProbeStream) (backend : RelayInput)
    (h : ∃ m, (if (shouldUseSlowModel (promptOf body.messages) probe body.messages).useSlowModel
        then getModelConfig parseURL body.slowModel "gpt-4o-mini"
        else getModelConfig parseURL body.fastModel "gpt-4o") = Except.error m) :
    handleChatCompletions parseURL body probe backend
      = { status := 500, body := RespBody.errJson "Model proxy failed",
          relayOpened := false } := by
  obtain ⟨m, hm⟩ := h
  have hshape : ∃ e, m = invalidModelConfigMessage e ∧
      (e = { message := "Model name is required", field := some "name" } ∨
       e = { message := "API key must be a string", field := some "apiKey" } ∨
       e = { message := "Invalid API URL", field := some "apiUrl" }) := by
    by_cases hdec :
        (shouldUseSlowModel (promptOf body.messages) probe body.messages).useSlowModel = true
    · rw [if_pos hdec] at hm
      obtain ⟨e, hv, hmsg⟩ := getModelConfig_error_shape hm
      exact ⟨e, hmsg, validateModelConfig_err_cases hv⟩
    · rw [if_neg hdec] at hm
      obtain ⟨e, hv, hmsg⟩ := getModelConfig_error_shape hm
      exact ⟨e, hmsg, validateModelConfig_err_cases hv⟩
  obtain ⟨e, hmsg, hcases⟩ := hshape
  have h4 : proxyErrorResponse m = (500, RespBody.errJson "Model proxy failed") := by
    rw [hmsg]
    exact proxyErrorResponse_invalidModelConfig hcases
  simp only [handleChatCompletions, hm]
  simp [h4]

/-- Witness for C9 amended: a structured fast selector with an empty name
yields the generic 500 with no relay connection. -/
theorem resolution_failure_generic_500_witness :
    handleChatCompletions (fun _ => true)
      { messages := [{ role := Role.user, content := Content.str "hi" }]
        fastModel := ModelParam.structured { name := "", apiKey := none, apiUrl := none }
        slowModel := ModelParam.absent
        stream := false }
      ProbeStream.createError
      { chunks := [], errorsAfter := false, disconnectAt := none }
      = { status := 500, body := RespBody.errJson "Model proxy failed",
          relayOpened := false } :=
  resolution_failure_generic_500 (fun _ => true)
    { messages := [{ role := Role.user, content := Content.str "hi" }]
      fastModel := ModelParam.structured { name := "", apiKey := none, apiUrl := none }
      slowModel := ModelParam.absent
      stream := false }
    ProbeStream.createError
    { chunks := [], errorsAfter := false, disconnectAt := none }
    ⟨"Invalid model configuration: Model name is required (name)", rfl⟩

/-- Counterexample to C9 as stated: on a request whose model resolution fails
on the name field, the caller-visible 500 body carries only the fixed message
Model proxy failed, which does not include the offending field name. -/
theorem resolution_failure_response_counterexample :
    handleChatCompletions (fun _ => true)
      { messages := [{ role := Role.user, content := Content.str "hello" }]
        fastModel := ModelParam.structured { name := "", apiKey := none, apiUrl := none }
        slowModel := ModelParam.absent
        stream := true }
      ProbeStream.createError
      { chunks := ["x"], errorsAfter := false, disconnectAt := none }
      = { status := 500, body := RespBody.errJson "Model proxy failed",
          relayOpened := false } ∧
    strIncludes "Model proxy failed" "name" = false :=
  ⟨rfl, rfl⟩

/-- Without a disconnect the relay loop forwards every chunk. -/
theorem relayLoop_none (chunks : List String) (i : Nat) :
    relayLoop none chunks i = (chunks, false) := by
  induction chunks generalizing i with
  | nil => rfl
  | cons c rest ih => simp [relayLoop, jsAborted, ih]

/-- With a disconnect at k the relay loop forwards the first k chunks and
exits early exactly when chunks remained. -/
theorem relayLoop_some (chunks : List String) (k i : Nat) :
    relayLoop (some k) chunks i
      = (chunks.take (k - i), decide (k - i < chunks.length)) := by
  induction chunks generalizing i with
  | nil => simp [relayLoop]
  | cons c rest ih =>
    by_cases hki : k ≤ i
    · have h0 : k - i = 0 := by omega
      simp [relayLoop, jsAborted, hki, h0]
    · have h1 : k - i = (k - (i + 1)) + 1 := by omega
      simp [relayLoop, jsAborted, hki, ih (i + 1), h1, Prod.mk.injEq]

/-- C1: when the client disconnects after k of the backend chunks with more
still to come, the relay forwards exactly the first k chunks and none of the
subsequent ones, surfaces no error to the caller, and the outbound backend
connection is released exactly once. -/
theorem client_disconnect_stops_relay (inp : RelayInput) (k : Nat)
    (hd : inp.disconnectAt = some k) (hk : k < inp.chunks.length) :
    (relayRun inp).enqueued = inp.chunks.take k ∧
    (relayRun inp).erroredToClient = false ∧
    (relayRun inp).releaseCount = 1 := by
  unfold relayRun
  rw [hd, relayLoop_some]
  have hk0 : k - 0 = k := by omega
  rw [hk0]
  have hdec : decide (k < inp.chunks.length) = true := decide_eq_true hk
  refine ⟨rfl, ?_, rfl⟩
  simp [hdec]

/-- Witness for C1: disconnecting after the first of three chunks forwards
only that chunk, raises nothing, and releases the backend once. -/
theorem client_disconnect_stops_relay_witness :
    (relayRun ⟨["a", "b", "c"], true, some 1⟩).enqueued = ["a", "b", "c"].take 1 ∧
    (relayRun ⟨["a", "b", "c"], true, some 1⟩).erroredToClient = false ∧
    (relayRun ⟨["a", "b", "c"], true, some 1⟩).releaseCount = 1 :=
  client_disconnect_stops_relay
    { chunks := ["a", "b", "c"], errorsAfter := true, disconnectAt := some 1 }
    1 rfl (by decide)

/-- Witness for C10: a trailing assistant message does not displace the last
user message as the classified prompt. -/
theorem last_user_message_classified_witness :
    promptOf [{ role := Role.user, content := Content.str "hi" },
      { role := Role.assistant, content := Content.str "yo" }]
      = Content.str "hi" :=
  (last_user_message_classified
    [{ role := Role.user, content := Content.str "hi" },
      { role := Role.assistant, content := Content.str "yo" }]
    ProbeStream.createError).1
    [] [{ role := Role.assistant, content := Content.str "yo" }]
    { role := Role.user, content := Content.str "hi" }
    rfl rfl (by decide)

end Absolute
